import Mathlib

/-!
Verification model of the KaiwaChan voice-profile aggregation and persistence
core:

* `src/core/voice/feature_extractor.py` — `FeatureExtractor.aggregate_features`
* `src/core/voice/profile_manager.py` — `VoiceProfileManager`
  (`save_profile`, `delete_profile`, `rename_profile`, `get_profile`,
  `_load_existing_profiles`, `_sanitize_profile_id`)
* `src/core/voice/voice_clone_manager.py` — `VoiceCloneManager.create_profile`

Numeric arrays are modelled over `ℚ` (exact arithmetic standing for the
floating-point values; per the data model all vectors of one profile share a
fixed dimension and all mel spectrograms share a fixed bin count).  The single
irrational step of the source — dividing a vector by its Euclidean norm — is
modelled over `ℝ`.  File names, identifiers and dictionary keys are modelled
as `List Char`.  Disk I/O failures are injected through an explicit failure
plan (`failAt` / `ioFail`) naming the first low-level filesystem operation
that raises, mirroring the `try/except` blocks of the source.
-/

/-- Profile identifiers / strings, modelled as character lists
(Python `str`). -/
abbrev PId := List Char

/-! ## Per-sample feature sets (`FeatureExtractor.extract_features` output) -/

/-- One sample's feature dictionary, as consumed by `aggregate_features`
(feature_extractor.py lines 130-139).  `speaker_embedding = none` models a
missing or `None`-valued key; `f0_stats_mean`/`f0_stats_std` model the
optional `'mean'`/`'std'` entries of the `'f0_stats'` sub-dictionary; `f0`
holds the voiced-pitch sequence (`f0_voiced`), with `[]` standing for a
missing or empty `'f0'` key (both are skipped identically by the reservoir
loop); `mel_spec` is the log-mel matrix as a list of frequency-bin rows. -/
structure SampleFeatures where
  speaker_embedding : Option (List ℚ)
  f0 : List ℚ
  f0_stats_mean : Option ℚ
  f0_stats_std : Option ℚ
  mel_spec : Option (List (List ℚ))
deriving DecidableEq

/-! ## Aggregation (`FeatureExtractor.aggregate_features`, lines 320-455) -/

/-- The embedding/weight pair one sample contributes to the weighted merge
(lines 341-348): present iff the sample has a usable (non-`None`)
`speaker_embedding`; the weight is `max(f0_mean, 1.0)` with `f0_mean`
defaulting to 0 when absent. -/
def usableEmbedding (f : SampleFeatures) : Option (List ℚ × ℚ) :=
  f.speaker_embedding.map (fun e => (e, max (f.f0_stats_mean.getD 0) 1))

/-- Mean over the time axis of one mel row (`np.mean(spec, axis=1)` applied
per bin, line 402).  An empty row yields `0` (division by zero in `ℚ`). -/
def rowMean (row : List ℚ) : ℚ := row.sum / (row.length : ℚ)

/-- The pitch-reservoir loop (lines 420-431): walk the samples in order,
appending each non-empty `f0` sequence; as soon as the accumulated list
exceeds 1000 entries it is truncated to its first 1000 and the loop breaks. -/
def collectF0Aux : List SampleFeatures → List ℚ → List ℚ
  | [], acc => acc
  | f :: rest, acc =>
    if 0 < f.f0.length then
      if 1000 < (acc ++ f.f0).length then (acc ++ f.f0).take 1000
      else collectF0Aux rest (acc ++ f.f0)
    else collectF0Aux rest acc

/-- The result dictionary of `aggregate_features` (lines 434-446).
`emb_pre` is the weighted mean of the sample embeddings *before* the final
re-normalization (the stored `speaker_embedding` is `finalEmbedding` of it);
`f0_samples = []` models the absent `'f0_samples'` key (line 445 only adds
the key when the list is non-empty). -/
structure AggregatedFeatures where
  emb_pre : List ℚ
  f0_mean : ℚ
  f0_std : ℚ
  mel_spec_mean : List (List ℚ)
  sample_count : ℕ
  f0_samples : List ℚ
deriving DecidableEq

/-- The `embeddings`/`weights` lists of lines 338-348, zipped: one pair per
sample with a usable embedding, in input order. -/
def embPairs (features_list : List SampleFeatures) : List (List ℚ × ℚ) :=
  features_list.filterMap usableEmbedding

/-- The weight-normalization denominator `np.sum(weights)` (line 355). -/
def totalWeight (features_list : List SampleFeatures) : ℚ :=
  ((embPairs features_list).map Prod.snd).sum

/-- The shared embedding dimension of the stacked array
`np.array(embeddings)` (line 356): the length of the first usable embedding
(`np.array` stacking requires all of them equal). -/
def embDim (features_list : List SampleFeatures) : ℕ :=
  (((embPairs features_list).head?).map (fun p => p.1.length)).getD 0

/-- The weighted embedding mean
`np.sum(embeddings * weights[:, np.newaxis], axis=0)` with the weights
divided by their sum (lines 355-357), rendered index-wise. -/
def embPre (features_list : List SampleFeatures) : List ℚ :=
  (List.range (embDim features_list)).map (fun j =>
    ((embPairs features_list).map
      (fun p => p.2 / totalWeight features_list * p.1.getD j 0)).sum)

/-- The `f0_means`/`f0_stds` lists of lines 366-378, zipped: samples whose
`f0_stats` has both a `'mean'` and a `'std'` entry and a positive mean. -/
def f0Pairs (features_list : List SampleFeatures) : List (ℚ × ℚ) :=
  features_list.filterMap (fun f =>
    match f.f0_stats_mean, f.f0_stats_std with
    | some m, some s => if 0 < m then some (m, s) else none
    | _, _ => none)

/-- Aggregated f0 mean (lines 380-386): sentinel `110.0` when no sample
contributed, else `np.mean(f0_means)`. -/
def aggF0Mean (features_list : List SampleFeatures) : ℚ :=
  if (f0Pairs features_list).isEmpty then 110
  else ((f0Pairs features_list).map Prod.fst).sum / ((f0Pairs features_list).length : ℚ)

/-- Aggregated f0 standard deviation (lines 380-386): sentinel `20.0` when
no sample contributed, else `np.mean(f0_stds)`. -/
def aggF0Std (features_list : List SampleFeatures) : ℚ :=
  if (f0Pairs features_list).isEmpty then 20
  else ((f0Pairs features_list).map Prod.snd).sum / ((f0Pairs features_list).length : ℚ)

/-- The `mel_specs` list of lines 391-395: every present mel matrix, in
input order. -/
def melList (features_list : List SampleFeatures) : List (List (List ℚ)) :=
  features_list.filterMap SampleFeatures.mel_spec

/-- The fixed-length mel template (lines 397-418): per-bin means over the
time axis, averaged across samples, each bin broadcast over 100 frames; an
all-zero 80 × 100 matrix when no sample has a mel spectrogram.  The bin
count is that of the first matrix (line 399). -/
def melTemplate (features_list : List SampleFeatures) : List (List ℚ) :=
  match melList features_list with
  | [] => List.replicate 80 (List.replicate 100 (0 : ℚ))
  | m0 :: _ =>
    ((List.range m0.length).map (fun i =>
      ((melList features_list).map (fun spec => rowMean (spec.getD i []))).sum /
        ((melList features_list).length : ℚ))).map
      (fun v => List.replicate 100 v)

/-- `FeatureExtractor.aggregate_features` (lines 320-455).  `none` models the
empty dictionary `{}` returned on the two error paths (empty input, line 330;
no usable embedding, line 350); otherwise the result dictionary of lines
434-446 assembled from the merges above. -/
def aggregate_features (features_list : List SampleFeatures) : Option AggregatedFeatures :=
  if features_list.isEmpty then none
  else if (embPairs features_list).isEmpty then none
  else
    some { emb_pre := embPre features_list, f0_mean := aggF0Mean features_list,
           f0_std := aggF0Std features_list, mel_spec_mean := melTemplate features_list,
           sample_count := features_list.length,
           f0_samples := collectF0Aux features_list [] }

/-! ## Final embedding normalization (lines 360-362) -/

/-- Sum of squared entries of a real vector. -/
def normSq (v : List ℝ) : ℝ := (v.map (fun x => x ^ 2)).sum

/-- Euclidean norm, `np.linalg.norm` (line 360). -/
noncomputable def vnorm (v : List ℝ) : ℝ := Real.sqrt (normSq v)

/-- The final re-normalization of the weighted embedding mean (lines
360-362): divide by the norm when it is positive, otherwise keep the vector
unchanged. -/
noncomputable def normalizeVec (v : List ℝ) : List ℝ :=
  if 0 < vnorm v then v.map (fun x => x / vnorm v) else v

/-- The `speaker_embedding` entry of the aggregated dictionary: the weighted
mean re-normalized to unit length (line 357 composed with lines 360-362). -/
noncomputable def finalEmbedding (r : AggregatedFeatures) : List ℝ :=
  normalizeVec (r.emb_pre.map (fun q => (q : ℝ)))

/-! ## Profile store (`VoiceProfileManager`, profile_manager.py) -/

/-- Non-array fields of a profile dictionary, persisted in `profile.json`
(save_profile line 151 keeps exactly the non-`ndarray` values). -/
structure ProfileMeta where
  name : Option PId
  created_at : Option ℕ
  updated_at : Option ℕ
  f0_stats_mean : Option ℚ
  f0_stats_std : Option ℚ
  sample_count : Option ℕ
deriving DecidableEq

/-- A profile dictionary as held in `self.profiles` and passed to
`save_profile`: the metadata together with the three optional numpy arrays
(`none` models a missing or `None`-valued key — both skip the sidecar write
at lines 165-174). -/
structure ProfileData where
  meta : ProfileMeta
  speaker_embedding : Option (List ℚ)
  f0_samples : Option (List ℚ)
  mel_spec_mean : Option (List (List ℚ))
deriving DecidableEq

/-- On-disk contents of one profile directory: the optional `profile.json`
record and the three optional `.npy` sidecar files. -/
structure ProfileDir where
  metadata : Option ProfileMeta
  emb : Option (List ℚ)
  f0s : Option (List ℚ)
  mel : Option (List (List ℚ))
deriving DecidableEq

/-- The in-memory `self.profiles` dictionary (insertion-ordered, as Python
dicts are). -/
abbrev Store := List (PId × ProfileData)

/-- The profile root directory: one entry per subdirectory. -/
abbrev Disk := List (PId × ProfileDir)

/-- First-match association lookup (Python `dict.get` / `in`). -/
def lookupA {α : Type} : List (PId × α) → PId → Option α
  | [], _ => none
  | (k, v) :: rest, k2 => if k = k2 then some v else lookupA rest k2

/-- Dictionary assignment `d[k] = v`: replace in place if the key exists,
else append. -/
def insertA {α : Type} : List (PId × α) → PId → α → List (PId × α)
  | [], k, v => [(k, v)]
  | (k0, v0) :: rest, k, v =>
    if k0 = k then (k0, v) :: rest else (k0, v0) :: insertA rest k v

/-- Dictionary deletion `del d[k]` (first occurrence). -/
def removeA {α : Type} : List (PId × α) → PId → List (PId × α)
  | [], _ => []
  | (k0, v0) :: rest, k => if k0 = k then rest else (k0, v0) :: removeA rest k

/-- A directory with none of its files written yet. -/
def emptyDir : ProfileDir := ⟨none, none, none, none⟩

/-- `profile_dir.mkdir(parents=True, exist_ok=True)` (line 148). -/
def mkdirP (d : Disk) (n : PId) : Disk :=
  if (lookupA d n).isSome then d else d ++ [(n, emptyDir)]

/-- Overwrite one file inside the named directory. -/
def updateDir (d : Disk) (n : PId) (f : ProfileDir → ProfileDir) : Disk :=
  d.map (fun p => if p.1 = n then (p.1, f p.2) else p)

/-- `shutil.rmtree` of the named directory (delete_profile lines 204-206:
a missing directory is simply skipped, which this filter also models). -/
def removeDir (d : Disk) (n : PId) : Disk := d.filter (fun p => p.1 ≠ n)

/-! ### Identifier sanitization (`_sanitize_profile_id`, lines 248-271) -/

/-- The characters removed by `_sanitize_profile_id` (line 263). -/
def invalidChars : List Char := ['<', '>', ':', '"', '/', '\\', '|', '?', '*']

/-- Python `str.strip()`: drop leading and trailing whitespace. -/
def trimEnds (s : List Char) : List Char :=
  ((s.dropWhile Char.isWhitespace).reverse.dropWhile Char.isWhitespace).reverse

/-- The loop of lines 264-265: successively delete every occurrence of each
invalid character (`str.replace(char, '')` for a single character is exactly
a filter). -/
def stripInvalid (s : List Char) : List Char :=
  invalidChars.foldl (fun acc ch => acc.filter (fun c => c ≠ ch)) s

/-- Decimal digit characters, for rendering the fallback timestamp. -/
def digitChar (d : ℕ) : Char :=
  if d = 0 then '0' else if d = 1 then '1' else if d = 2 then '2' else if d = 3 then '3'
  else if d = 4 then '4' else if d = 5 then '5' else if d = 6 then '6' else if d = 7 then '7'
  else if d = 8 then '8' else '9'

/-- Fuel-driven decimal rendering: emit the leading digits of `n / 10`, then
the last digit.  The fuel (always sufficient at `n + 1`) keeps the recursion
structural. -/
def natDigitsAux : ℕ → ℕ → List Char
  | 0, _ => []
  | fuel + 1, n =>
    if n < 10 then [digitChar n]
    else natDigitsAux fuel (n / 10) ++ [digitChar (n % 10)]

/-- Decimal rendering of a natural number (Python `f"{int(...)}"`). -/
def natDigits (n : ℕ) : List Char := natDigitsAux (n + 1) n

/-- Lines 259-265 of `_sanitize_profile_id`: trim, map spaces to
underscores, strip the invalid characters. -/
def sanitizeCore (profile_id : PId) : PId :=
  stripInvalid ((trimEnds profile_id).map (fun c => if c = ' ' then '_' else c))

/-- `_sanitize_profile_id` (lines 248-271): the cleanup above, falling back
to `profile_<timestamp>` when it comes out empty (`now` is the integer
timestamp `int(time.time())`). -/
def sanitizeProfileId (profile_id : PId) (now : ℕ) : PId :=
  if (sanitizeCore profile_id).isEmpty then "profile_".toList ++ natDigits now
  else sanitizeCore profile_id

/-! ### save / load / get / delete / rename -/

/-- Lines 153-158 of `save_profile`: default `created_at` when absent and
stamp `updated_at`, on the metadata copy only. -/
def stampMeta (m : ProfileMeta) (now : ℕ) : ProfileMeta :=
  { m with created_at := some (m.created_at.getD now), updated_at := some now }

/-- One fallible filesystem operation: the operation numbered `k` of the
current call raises (is caught by the surrounding `except`) exactly when the
failure plan names it; the error carries the disk state reached so far. -/
def diskOp (failAt : Option ℕ) (k : ℕ) (w : Disk → Disk) (d : Disk) : Except Disk Disk :=
  if failAt = some k then Except.error d else Except.ok (w d)

/-- A conditional sidecar write (lines 165-174): skipped entirely — and thus
unable to fail — when the array is absent or `None`. -/
def diskOpOpt {α : Type} (failAt : Option ℕ) (k : ℕ) (x : Option α) (w : α → Disk → Disk)
    (d : Disk) : Except Disk Disk :=
  match x with
  | none => Except.ok d
  | some v => diskOp failAt k (w v) d

/-- The five filesystem operations of `save_profile` in source order
(lines 146-174): 0 `mkdir`, 1 write `profile.json` (stamped metadata copy),
2 write `speaker_embedding.npy`, 3 write `f0_samples.npy`,
4 write `mel_spec_mean.npy` — each write going directly to its final path
inside the profile directory. -/
def saveOps (disk : Disk) (sid : PId) (pd : ProfileData) (now : ℕ) (failAt : Option ℕ) :
    Except Disk Disk :=
  diskOp failAt 0 (fun d => mkdirP d sid) disk >>= fun d =>
  diskOp failAt 1
    (fun d => updateDir d sid (fun dir => { dir with metadata := some (stampMeta pd.meta now) })) d >>= fun d =>
  diskOpOpt failAt 2 pd.speaker_embedding
    (fun e d => updateDir d sid (fun dir => { dir with emb := some e })) d >>= fun d =>
  diskOpOpt failAt 3 pd.f0_samples
    (fun v d => updateDir d sid (fun dir => { dir with f0s := some v })) d >>= fun d =>
  diskOpOpt failAt 4 pd.mel_spec_mean
    (fun v d => updateDir d sid (fun dir => { dir with mel := some v })) d

/-- `VoiceProfileManager.save_profile` (lines 128-186): sanitize the id,
run the five filesystem operations of `saveOps`, and only after every one
succeeds update the in-memory dictionary — with the *original*
`profile_data`, under the *sanitized* id (line 177).  Any raise is caught
and surfaced as `False` (lines 182-186), leaving `self.profiles` untouched.
The guard at lines 142-144 (empty sanitized id) is kept although
`sanitizeProfileId` never returns an empty list. -/
def save_profile (st : Store) (disk : Disk) (profile_id : PId) (pd : ProfileData) (now : ℕ)
    (failAt : Option ℕ) : Bool × Store × Disk :=
  let sid := sanitizeProfileId profile_id now
  if sid.isEmpty then (false, st, disk)
  else
    match saveOps disk sid pd now failAt with
    | Except.error d => (false, st, d)
    | Except.ok d => (true, insertA st sid pd, d)

/-- `VoiceProfileManager._load_existing_profiles` (lines 40-93) on a fresh
instance: scan the profile root, skip directories without `profile.json`,
and take each present sidecar as the corresponding array field (an absent
sidecar leaves the field absent).  The directory name is the profile id. -/
def load_all (disk : Disk) : Store :=
  disk.filterMap (fun p =>
    p.2.metadata.map (fun m => (p.1, ProfileData.mk m p.2.emb p.2.f0s p.2.mel)))

/-- `VoiceProfileManager.get_profile` (lines 116-126): raw-id dictionary
lookup, no sanitization. -/
def get_profile (st : Store) (profile_id : PId) : Option ProfileData :=
  lookupA st profile_id

/-- `VoiceProfileManager.get_profile_ids` (lines 95-102). -/
def get_profile_ids (st : Store) : List PId := st.map Prod.fst

/-- `VoiceProfileManager.delete_profile` (lines 188-218): unknown raw id →
`False` without touching anything; otherwise remove the directory (`ioFail`
models `shutil.rmtree` raising, caught at lines 214-218 with the in-memory
dictionary untouched) and only then delete the in-memory entry. -/
def delete_profile (st : Store) (disk : Disk) (profile_id : PId) (ioFail : Bool) :
    Bool × Store × Disk :=
  if (lookupA st profile_id).isNone then (false, st, disk)
  else if ioFail then (false, st, disk)
  else (true, removeA st profile_id, removeDir disk profile_id)

/-- `VoiceProfileManager.rename_profile` (lines 220-246): unknown raw id →
`False`; otherwise mutate the entry's name in place and re-save under the
raw id (which `save_profile` re-sanitizes). -/
def rename_profile (st : Store) (disk : Disk) (profile_id : PId) (new_name : PId) (now : ℕ)
    (failAt : Option ℕ) : Bool × Store × Disk :=
  match lookupA st profile_id with
  | none => (false, st, disk)
  | some pd =>
    let pd2 := { pd with meta := { pd.meta with name := some new_name } }
    let st1 := insertA st profile_id pd2
    save_profile st1 disk profile_id pd2 now failAt

/-! ## Facade (`VoiceCloneManager.create_profile`, voice_clone_manager.py
lines 117-215) -/

/-- The profile dictionary assembled at lines 184-191, restricted to the
fields the store model tracks (`sample_files` is display-only provenance and
not modelled; the aggregated dictionary's own `created_at` and
`sample_count` win the `**`-merge, both computed from the same inputs).
The stored embedding array is tracked as the pre-normalization rational
vector — the source stores its normalization `finalEmbedding`, which the
store treats as an opaque array. -/
def buildProfileData (profile_name : PId) (now : ℕ) (agg : AggregatedFeatures) : ProfileData :=
  { meta := { name := some profile_name, created_at := some now, updated_at := none,
              f0_stats_mean := some agg.f0_mean, f0_stats_std := some agg.f0_std,
              sample_count := some agg.sample_count }
    speaker_embedding := some agg.emb_pre
    f0_samples := if agg.f0_samples.isEmpty then none else some agg.f0_samples
    mel_spec_mean := some agg.mel_spec_mean }

/-- `VoiceCloneManager.create_profile` (lines 117-215), with the per-file
extraction outcomes supplied as an oracle list (`none` = extraction failed
for that file, skipped at line 157) and no cancellation callback.  Empty
input, all-failed extraction, and aggregation failure each return `None`
before any store call; on success the profile is saved under
`f"{profile_name}_{int(time.time())}"` and that raw id is returned. -/
def create_profile (st : Store) (disk : Disk) (extraction_results : List (Option SampleFeatures))
    (profile_name : PId) (now : ℕ) : Option PId × Store × Disk :=
  if extraction_results.isEmpty then (none, st, disk)
  else
    let features_list := extraction_results.filterMap id
    if features_list.isEmpty then (none, st, disk)
    else
      match aggregate_features features_list with
      | none => (none, st, disk)
      | some agg =>
        let pid := profile_name ++ '_' :: natDigits now
        let pd := buildProfileData profile_name now agg
        let out := save_profile st disk pid pd now none
        if out.1 then (some pid, out.2.1, out.2.2) else (none, out.2.1, out.2.2)

/-! ## Helper lemmas: association lists and disk operations -/

theorem lookupA_eq_none {α : Type} (st : List (PId × α)) (k : PId) :
    lookupA st k = none ↔ k ∉ st.map Prod.fst := by
  induction st with
  | nil => simp [lookupA]
  | cons p rest ih =>
    obtain ⟨k0, v0⟩ := p
    by_cases h0 : k0 = k
    · subst h0
      simp only [lookupA, if_pos rfl, List.map_cons, List.mem_cons, not_or]
      constructor
      · intro h
        exact Option.noConfusion h
      · rintro ⟨h1, -⟩
        exact absurd trivial h1
    · have h0' : ¬(k = k0) := fun h => h0 h.symm
      simp only [lookupA, if_neg h0, List.map_cons, List.mem_cons, not_or, ih]
      constructor
      · intro h
        exact ⟨h0', h⟩
      · rintro ⟨-, h⟩
        exact h

theorem lookupA_insertA {α : Type} (st : List (PId × α)) (k k2 : PId) (v : α) :
    lookupA (insertA st k v) k2 = if k = k2 then some v else lookupA st k2 := by
  induction st with
  | nil => by_cases h : k = k2 <;> simp [insertA, lookupA, h]
  | cons p rest ih =>
    obtain ⟨k0, v0⟩ := p
    by_cases h0 : k0 = k
    · subst h0
      simp only [insertA, if_pos rfl]
      by_cases h2 : k0 = k2
      · subst h2
        simp [lookupA]
      · simp [lookupA, h2]
    · simp only [insertA, if_neg h0]
      by_cases h2 : k0 = k2
      · subst h2
        have h3 : ¬(k = k0) := fun h => h0 h.symm
        simp [lookupA, h3]
      · simp [lookupA, h2, ih]

theorem lookupA_removeA_self {α : Type} (st : List (PId × α)) (k : PId)
    (hnd : (st.map Prod.fst).Nodup) : lookupA (removeA st k) k = none := by
  induction st with
  | nil => rfl
  | cons p rest ih =>
    obtain ⟨k0, v0⟩ := p
    simp only [List.map_cons, List.nodup_cons] at hnd
    by_cases h0 : k0 = k
    · subst h0
      simp only [removeA, if_pos rfl]
      exact (lookupA_eq_none rest k0).mpr hnd.1
    · simp [removeA, h0, lookupA, ih hnd.2]

theorem lookupA_append_right {α : Type} (a b : List (PId × α)) (k : PId)
    (h : lookupA a k = none) : lookupA (a ++ b) k = lookupA b k := by
  induction a with
  | nil => rfl
  | cons p rest ih =>
    obtain ⟨k0, v0⟩ := p
    by_cases h0 : k0 = k
    · simp [lookupA, h0] at h
    · simp only [lookupA, h0, if_false, List.cons_append, if_neg h0] at h ⊢
      exact ih h

theorem lookupA_mkdirP (d : Disk) (n : PId) :
    lookupA (mkdirP d n) n = some ((lookupA d n).getD emptyDir) := by
  unfold mkdirP
  cases h : lookupA d n with
  | some dir => simp [h]
  | none => simp [h, lookupA_append_right _ _ _ h, lookupA]

theorem lookupA_updateDir (d : Disk) (n n2 : PId) (f : ProfileDir → ProfileDir) :
    lookupA (updateDir d n f) n2 =
      if n = n2 then (lookupA d n2).map f else lookupA d n2 := by
  induction d with
  | nil => by_cases h : n = n2 <;> simp [updateDir, lookupA, h]
  | cons p rest ih =>
    obtain ⟨k0, dir0⟩ := p
    simp only [updateDir, List.map_cons] at ih ⊢
    by_cases h0 : k0 = n
    · subst h0
      simp only [if_pos rfl]
      by_cases h2 : k0 = n2
      · subst h2
        simp [lookupA, ih]
      · simp [lookupA, h2, ih]
    · simp only [if_neg h0]
      by_cases h2 : k0 = n2
      · subst h2
        have h3 : ¬(n = k0) := fun h => h0 h.symm
        simp [lookupA, h3]
      · simp [lookupA, h2, ih]

theorem lookupA_load_all (d : Disk) (n : PId) (dir : ProfileDir) (m : ProfileMeta)
    (hl : lookupA d n = some dir) (hm : dir.metadata = some m) :
    lookupA (load_all d) n = some (ProfileData.mk m dir.emb dir.f0s dir.mel) := by
  induction d with
  | nil => simp [lookupA] at hl
  | cons p rest ih =>
    obtain ⟨k0, dir0⟩ := p
    by_cases h0 : k0 = n
    · subst h0
      have hl2 : dir0 = dir := by
        have : lookupA ((k0, dir0) :: rest) k0 = some dir0 := by simp [lookupA]
        exact Option.some.inj (this.symm.trans hl)
      subst hl2
      simp [load_all, List.filterMap_cons, hm, lookupA]
    · simp only [lookupA, if_neg h0] at hl
      cases hmd : dir0.metadata with
      | none =>
        simpa [load_all, List.filterMap_cons, hmd] using ih hl
      | some m0 =>
        simpa [load_all, List.filterMap_cons, hmd, lookupA, h0] using ih hl

/-! ## Helper lemmas: sanitization -/

theorem mem_foldl_filter (cs : List Char) (s : List Char) (c : Char)
    (h : c ∈ cs.foldl (fun acc ch => acc.filter (fun x => x ≠ ch)) s) :
    c ∈ s ∧ ∀ ch ∈ cs, c ≠ ch := by
  induction cs generalizing s with
  | nil => simpa using h
  | cons ch rest ih =>
    simp only [List.foldl_cons] at h
    obtain ⟨hmem, hall⟩ := ih _ h
    simp only [List.mem_filter, decide_eq_true_eq] at hmem
    refine ⟨hmem.1, ?_⟩
    intro ch2 hch2
    rcases List.mem_cons.mp hch2 with rfl | h2
    · exact hmem.2
    · exact hall ch2 h2

theorem digitChar_mem (d : ℕ) : digitChar d ∈ "0123456789".toList := by
  unfold digitChar
  split_ifs <;> decide

theorem digitChar_not_invalid (d : ℕ) : digitChar d ∉ invalidChars := by
  have hall : ∀ c ∈ "0123456789".toList, c ∉ invalidChars := by decide
  exact hall _ (digitChar_mem d)

theorem mem_natDigitsAux (fuel : ℕ) : ∀ n c, c ∈ natDigitsAux fuel n → ∃ d, c = digitChar d := by
  induction fuel with
  | zero => intro n c h; simp [natDigitsAux] at h
  | succ fuel ih =>
    intro n c h
    unfold natDigitsAux at h
    split at h
    · simp only [List.mem_singleton] at h
      exact ⟨n, h⟩
    · rcases List.mem_append.mp h with h1 | h1
      · exact ih _ _ h1
      · simp only [List.mem_singleton] at h1
        exact ⟨n % 10, h1⟩

theorem sanitize_no_invalid (pid : PId) (now : ℕ) :
    ∀ c ∈ sanitizeProfileId pid now, c ∉ invalidChars := by
  intro c hc
  unfold sanitizeProfileId at hc
  split at hc
  · rcases List.mem_append.mp hc with h | h
    · have hall : ∀ x ∈ "profile_".toList, x ∉ invalidChars := by decide
      exact hall c h
    · obtain ⟨d, rfl⟩ := mem_natDigitsAux _ _ _ h
      exact digitChar_not_invalid d
  · intro hin
    exact (mem_foldl_filter invalidChars _ c hc).2 c hin rfl

theorem sanitize_ne_nil (pid : PId) (now : ℕ) : sanitizeProfileId pid now ≠ [] := by
  unfold sanitizeProfileId
  split
  · intro h
    exact absurd (List.append_eq_nil.mp h).1 (by decide)
  · next h =>
    intro h2
    simp [h2] at h

/-! ## Helper lemmas: the effect of a fully successful save -/

/-- The disk state after all five operations of `save_profile` succeed, in
source order (mkdir, metadata, then the three conditional sidecars). -/
def saveDiskEffect (disk : Disk) (sid : PId) (pd : ProfileData) (now : ℕ) : Disk :=
  let d0 := mkdirP disk sid
  let d1 := updateDir d0 sid (fun dir => { dir with metadata := some (stampMeta pd.meta now) })
  let d2 :=
    match pd.speaker_embedding with
    | none => d1
    | some e => updateDir d1 sid (fun dir => { dir with emb := some e })
  let d3 :=
    match pd.f0_samples with
    | none => d2
    | some v => updateDir d2 sid (fun dir => { dir with f0s := some v })
  match pd.mel_spec_mean with
  | none => d3
  | some v => updateDir d3 sid (fun dir => { dir with mel := some v })

theorem save_profile_ok (st : Store) (disk : Disk) (pid : PId) (pd : ProfileData) (now : ℕ) :
    save_profile st disk pid pd now none =
      (true, insertA st (sanitizeProfileId pid now) pd,
       saveDiskEffect disk (sanitizeProfileId pid now) pd now) := by
  have hfalse : (sanitizeProfileId pid now).isEmpty = false := by
    rcases h : sanitizeProfileId pid now with _ | ⟨c, rest⟩
    · exact absurd h (sanitize_ne_nil pid now)
    · rfl
  obtain ⟨m, se, fs, ms⟩ := pd
  cases se <;> cases fs <;> cases ms <;>
    simp [save_profile, saveOps, saveDiskEffect, diskOp, diskOpOpt, hfalse, Bind.bind,
      Except.bind]

/-! ## C8 — identifier sanitization -/

/-- C8: `save_profile` registers the profile under the sanitized id; the
sanitized id (trim, space → underscore, strip of the forbidden characters)
never contains a forbidden character, an empty cleanup result falls back to
`profile_<timestamp>`, and the persisted id is never empty. -/
theorem save_sanitizes_profile_id (st : Store) (disk : Disk) (pid : PId) (pd : ProfileData)
    (now : ℕ) :
    (save_profile st disk pid pd now none).2.1 = insertA st (sanitizeProfileId pid now) pd ∧
    (∀ c ∈ sanitizeProfileId pid now, c ∉ invalidChars) ∧
    (sanitizeCore pid = [] → sanitizeProfileId pid now = "profile_".toList ++ natDigits now) ∧
    sanitizeProfileId pid now ≠ [] := by
  refine ⟨by rw [save_profile_ok], sanitize_no_invalid pid now, ?_, sanitize_ne_nil pid now⟩
  intro h
  simp [sanitizeProfileId, h]

/-! ## C6 — when aggregation fails -/

theorem usableEmbedding_eq_none (f : SampleFeatures) :
    usableEmbedding f = none ↔ f.speaker_embedding = none := by
  unfold usableEmbedding
  cases f.speaker_embedding <;> simp

/-- C6: `aggregate_features` returns its error value (the empty dictionary)
exactly when the input list is empty or no sample in it carries a usable
(present, non-`None`) speaker embedding; every other input yields the full
aggregated record. -/
theorem aggregate_fails_iff (features_list : List SampleFeatures) :
    aggregate_features features_list = none ↔
      features_list = [] ∨ ∀ f ∈ features_list, f.speaker_embedding = none := by
  have hpairs : (embPairs features_list).isEmpty = true ↔
      ∀ f ∈ features_list, f.speaker_embedding = none := by
    rw [List.isEmpty_iff]
    unfold embPairs
    rw [List.filterMap_eq_nil_iff]
    constructor
    · intro h f hf
      exact (usableEmbedding_eq_none f).mp (h f hf)
    · intro h f hf
      exact (usableEmbedding_eq_none f).mpr (h f hf)
  by_cases h1 : features_list.isEmpty
  · simp [aggregate_features, h1, List.isEmpty_iff.mp h1]
  · by_cases h2 : (embPairs features_list).isEmpty
    · simp only [aggregate_features, h1, Bool.false_eq_true, if_false, h2, if_true]
      exact iff_of_true trivial (Or.inr (hpairs.mp h2))
    · simp only [aggregate_features, h1, Bool.false_eq_true, if_false, h2]
      constructor
      · intro h
        exact Option.noConfusion h
      · intro h
        rcases h with h | h
        · subst h
          simp at h1
        · exact absurd (hpairs.mpr h) (by simpa using h2)

/-! ## C7 — idempotent delete -/

/-- C7: `delete_profile` on an id not in the store returns `False` (not an
error) and changes neither the store nor the disk — in particular
`get_profile_ids` is unchanged; after a successful delete the same id is
gone, so a second delete is a no-op returning `False`. -/
theorem delete_profile_idempotent (st : Store) (disk : Disk) (profile_id : PId)
    (hnd : (st.map Prod.fst).Nodup) :
    (lookupA st profile_id = none →
      delete_profile st disk profile_id false = (false, st, disk) ∧
      get_profile_ids (delete_profile st disk profile_id false).2.1 = get_profile_ids st) ∧
    (lookupA st profile_id ≠ none →
      delete_profile (delete_profile st disk profile_id false).2.1
        (delete_profile st disk profile_id false).2.2 profile_id false =
        (false, (delete_profile st disk profile_id false).2.1,
         (delete_profile st disk profile_id false).2.2)) := by
  constructor
  · intro h
    have heq : delete_profile st disk profile_id false = (false, st, disk) := by
      simp [delete_profile, h]
    exact ⟨heq, by rw [heq]⟩
  · intro h
    obtain ⟨pd, hpd⟩ := Option.ne_none_iff_exists'.mp h
    have h1 : delete_profile st disk profile_id false =
        (true, removeA st profile_id, removeDir disk profile_id) := by
      simp [delete_profile, hpd]
    rw [h1]
    have h2 : lookupA (removeA st profile_id) profile_id = none :=
      lookupA_removeA_self st profile_id hnd
    simp [delete_profile, h2]

/-- Profile dictionary with every field absent, for concrete store states. -/
def pdW : ProfileData := ⟨⟨none, none, none, none, none, none⟩, none, none, none⟩

/-- Witness for C7 at a one-entry store: deleting `'a'` twice, the second
call is a no-op returning `False`. -/
theorem delete_profile_idempotent_witness :
    delete_profile (delete_profile [(['a'], pdW)] [] ['a'] false).2.1
      (delete_profile [(['a'], pdW)] [] ['a'] false).2.2 ['a'] false =
      (false, (delete_profile [(['a'], pdW)] [] ['a'] false).2.1,
       (delete_profile [(['a'], pdW)] [] ['a'] false).2.2) :=
  (delete_profile_idempotent [(['a'], pdW)] [] ['a'] (by decide)).2 (by decide)

/-! ## C9 — create_profile failure paths persist nothing -/

/-- C9: `create_profile` returns `None` with both the in-memory store and
the disk untouched — so nothing new is visible to `get_profile` or
`load_all` — whenever the sample list is empty, every sample failed
extraction, or aggregation reports its error value. -/
theorem create_profile_aborts_cleanly (st : Store) (disk : Disk)
    (extraction_results : List (Option SampleFeatures)) (profile_name : PId) (now : ℕ)
    (h : extraction_results = [] ∨ (∀ x ∈ extraction_results, x = none) ∨
         aggregate_features (extraction_results.filterMap id) = none) :
    create_profile st disk extraction_results profile_name now = (none, st, disk) := by
  rcases h with h | h | h
  · subst h
    rfl
  · have hfm : extraction_results.filterMap id = [] := by
      rw [List.filterMap_eq_nil_iff]
      intro a ha
      simpa using h a ha
    by_cases he : extraction_results.isEmpty
    · simp [create_profile, he]
    · simp [create_profile, he, hfm]
  · by_cases he : extraction_results.isEmpty
    · simp [create_profile, he]
    · by_cases hf : (extraction_results.filterMap id).isEmpty
      · simp [create_profile, he, hf]
      · simp [create_profile, he, hf, h]

/-- Witness for C9: the empty sample list creates nothing. -/
theorem create_profile_aborts_cleanly_witness :
    create_profile [] [] [] "n".toList 0 = (none, [], []) :=
  create_profile_aborts_cleanly [] [] [] "n".toList 0 (Or.inl rfl)

/-! ## C10 — the raw id is unreachable when sanitization changed it -/

/-- C10: `save_profile` registers only the sanitized id while `get`,
`delete` and `rename` look the raw id up unsanitized; so for an id whose
sanitized form differs (and which is not already a key of the store),
after a successful save `get_profile` on the original id is `None` and
`delete_profile` / `rename_profile` on it return `False`. -/
theorem raw_id_unreachable_after_save (st : Store) (disk : Disk) (profile_id : PId)
    (pd : ProfileData) (now now2 : ℕ) (ioFail : Bool) (failAt2 : Option ℕ) (new_name : PId)
    (hdiff : sanitizeProfileId profile_id now ≠ profile_id)
    (hraw : lookupA st profile_id = none) :
    (save_profile st disk profile_id pd now none).1 = true ∧
    get_profile (save_profile st disk profile_id pd now none).2.1 profile_id = none ∧
    (delete_profile (save_profile st disk profile_id pd now none).2.1
      (save_profile st disk profile_id pd now none).2.2 profile_id ioFail).1 = false ∧
    (rename_profile (save_profile st disk profile_id pd now none).2.1
      (save_profile st disk profile_id pd now none).2.2 profile_id new_name now2 failAt2).1
      = false := by
  rw [save_profile_ok]
  have hlook : lookupA (insertA st (sanitizeProfileId profile_id now) pd) profile_id = none := by
    rw [lookupA_insertA, if_neg hdiff, hraw]
  refine ⟨rfl, hlook, ?_, ?_⟩
  · simp [delete_profile, hlook]
  · simp [rename_profile, hlook]

/-- Witness for C10 at the id `"a b"` (sanitized to `"a_b"`): after saving,
the raw id resolves to nothing. -/
theorem raw_id_unreachable_after_save_witness :
    get_profile (save_profile [] [] "a b".toList pdW 3 none).2.1 "a b".toList = none :=
  (raw_id_unreachable_after_save [] [] "a b".toList pdW 3 0 false none []
    (by decide) (by decide)).2.1

/-! ## C1 — store failure behaviour -/

/-- C1 (amended): when `save_profile` or `delete_profile` reports failure
(`False`), the in-memory profile dictionary is left exactly as it was —
the source updates `self.profiles` only after every disk operation
succeeded.  (The claim's stage-then-promote part is refuted separately:
writes go directly to their final paths.) -/
theorem store_failure_preserves_memory (st : Store) (disk : Disk) (profile_id : PId)
    (pd : ProfileData) (now : ℕ) (failAt : Option ℕ) (ioFail : Bool) :
    ((save_profile st disk profile_id pd now failAt).1 = false →
      (save_profile st disk profile_id pd now failAt).2.1 = st) ∧
    ((delete_profile st disk profile_id ioFail).1 = false →
      (delete_profile st disk profile_id ioFail).2.1 = st) := by
  constructor
  · intro hfail
    unfold save_profile at hfail ⊢
    by_cases hs : (sanitizeProfileId profile_id now).isEmpty
    · simp [hs]
    · simp only [hs, Bool.false_eq_true, if_false] at hfail ⊢
      cases hr : saveOps disk (sanitizeProfileId profile_id now) pd now failAt with
      | error d => simp [hr]
      | ok d =>
        rw [hr] at hfail
        simp at hfail
  · intro hfail
    unfold delete_profile at hfail ⊢
    by_cases h0 : (lookupA st profile_id).isNone
    · simp [h0]
    · cases ioFail with
      | true => simp [h0]
      | false =>
        simp only [h0, Bool.false_eq_true, if_false] at hfail
        simp at hfail

/-- Witness for C1's amended theorem: a save failing at the embedding write
and a delete failing in `rmtree` both leave the dictionary untouched. -/
theorem store_failure_preserves_memory_witness :
    (save_profile [] [] "p".toList ⟨⟨none, none, none, none, none, none⟩, some [1], none, none⟩
        5 (some 2)).2.1 = [] ∧
    (delete_profile [(['a'], pdW)] [] ['a'] true).2.1 = [(['a'], pdW)] :=
  ⟨(store_failure_preserves_memory [] [] "p".toList
      ⟨⟨none, none, none, none, none, none⟩, some [1], none, none⟩ 5 (some 2) false).1
      (by decide),
   (store_failure_preserves_memory [(['a'], pdW)] [] ['a'] pdW 0 none true).2 (by decide)⟩

/-- Profile dictionary holding one embedding array, used to exhibit the
partial-write window of `save_profile`. -/
def pdC : ProfileData := ⟨⟨none, none, none, none, none, none⟩, some [1], none, none⟩

/-- Counterexample to C1 as stated: saving `pdC` under `"p"` with the
`speaker_embedding.npy` write raising (operation 2) returns `False` and
leaves the in-memory dictionary empty, yet a restart (`load_all`) now shows
a profile under `"p"` whose metadata was written but whose embedding is
missing — a partially-written profile directory is observable, and the
in-memory state (no profile) diverges from disk (one profile).  So the
stage-then-promote / no-partial-write part of the claim is false of the
code. -/
theorem save_partial_write_observable :
    (save_profile [] [] "p".toList pdC 5 (some 2)).1 = false ∧
    (save_profile [] [] "p".toList pdC 5 (some 2)).2.1 = [] ∧
    load_all [] = [] ∧
    get_profile (load_all (save_profile [] [] "p".toList pdC 5 (some 2)).2.2) "p".toList =
      some ⟨⟨none, some 5, some 5, none, none, none⟩, none, none, none⟩ ∧
    (⟨⟨none, some 5, some 5, none, none, none⟩, none, none, none⟩ : ProfileData).speaker_embedding
      ≠ pdC.speaker_embedding := by
  decide

/-! ## C2 — the pitch reservoir is a stable 1000-truncation -/

/-- Concatenation of all voiced-pitch sequences in input order (the full,
untruncated reservoir). -/
def joinF0 (features_list : List SampleFeatures) : List ℚ :=
  (features_list.map SampleFeatures.f0).flatten

theorem collectF0Aux_spec (features_list : List SampleFeatures) :
    ∀ acc : List ℚ, acc.length ≤ 1000 → 1000 < (acc ++ joinF0 features_list).length →
      collectF0Aux features_list acc = (acc ++ joinF0 features_list).take 1000 := by
  induction features_list with
  | nil =>
    intro acc h1 h2
    simp [joinF0] at h2
    omega
  | cons f rest ih =>
    intro acc h1 h2
    have hsplit : acc ++ joinF0 (f :: rest) = (acc ++ f.f0) ++ joinF0 rest := by
      unfold joinF0
      rw [List.map_cons, List.flatten_cons, List.append_assoc]
    have hlen : (acc ++ f.f0).length = acc.length + f.f0.length := List.length_append _ _
    unfold collectF0Aux
    by_cases hf : 0 < f.f0.length
    · simp only [hf, if_true]
      by_cases hacc : 1000 < (acc ++ f.f0).length
      · simp only [hacc, if_true]
        rw [hsplit, List.take_append_of_le_length (le_of_lt hacc)]
      · simp only [hacc, if_false]
        rw [hsplit] at h2 ⊢
        exact ih (acc ++ f.f0) (by omega) h2
    · simp only [hf, if_false]
      have hf0 : f.f0 = [] := by
        cases hc : f.f0 with
        | nil => rfl
        | cons a l => rw [hc] at hf; simp at hf
      have heq : acc ++ joinF0 (f :: rest) = acc ++ joinF0 rest := by
        simp [joinF0, hf0]
      rw [heq] at h2 ⊢
      exact ih acc h1 h2

/-- C2: whenever the concatenated voiced-pitch sequences exceed 1000 values,
the aggregated `f0_samples` is exactly the first 1000 of them in input
order, and its length is exactly 1000. -/
theorem f0_reservoir_bounded (features_list : List SampleFeatures)
    (hne : features_list ≠ [])
    (hlen : 1000 < (joinF0 features_list).length) :
    ∀ r, aggregate_features features_list = some r →
      r.f0_samples = (joinF0 features_list).take 1000 ∧ r.f0_samples.length = 1000 := by
  intro r hr
  have hfs : r.f0_samples = collectF0Aux features_list [] := by
    unfold aggregate_features at hr
    by_cases h1 : features_list.isEmpty
    · simp [h1] at hr
    · by_cases h2 : (embPairs features_list).isEmpty
      · simp [h1, h2] at hr
      · simp only [h1, h2, Bool.false_eq_true, if_false, Option.some.injEq] at hr
        subst hr
        rfl
  have hmain := collectF0Aux_spec features_list [] (by simp) (by simpa using hlen)
  simp only [List.nil_append] at hmain
  rw [hfs, hmain]
  refine ⟨rfl, ?_⟩
  rw [List.length_take]
  omega

/-- Sample whose voiced-pitch sequence alone exceeds the reservoir bound. -/
def sBig : SampleFeatures := ⟨some [1], List.replicate 1001 440, none, none, none⟩

/-- Witness for C2: one sample with 1001 pitch values aggregates to a
1000-value reservoir equal to the stable truncation. -/
theorem f0_reservoir_bounded_witness :
    (aggregate_features [sBig]).map AggregatedFeatures.f0_samples =
      some ((joinF0 [sBig]).take 1000) := by
  have hlen : (joinF0 [sBig]).length = 1001 := by
    rw [joinF0]
    simp only [List.map_cons, List.map_nil, List.flatten_cons, List.flatten_nil,
      List.append_nil, sBig, List.length_replicate]
  cases hr : aggregate_features [sBig] with
  | none => exact absurd hr (by decide)
  | some r =>
    have h := f0_reservoir_bounded [sBig] (by decide) (by omega) r hr
    simp [h.1]

/-! ## C3 — save then load_all round trip -/

theorem lookupA_saveDiskEffect (disk : Disk) (sid : PId) (pd : ProfileData) (now : ℕ)
    (e : List ℚ) (mm : List (List ℚ)) (hse : pd.speaker_embedding = some e)
    (hms : pd.mel_spec_mean = some mm) :
    ∃ dir : ProfileDir,
      lookupA (saveDiskEffect disk sid pd now) sid = some dir ∧
      dir.metadata = some (stampMeta pd.meta now) ∧ dir.emb = some e ∧ dir.mel = some mm := by
  unfold saveDiskEffect
  rw [hse, hms]
  cases hfs : pd.f0_samples with
  | none =>
    simp only [lookupA_updateDir, if_pos rfl, lookupA_mkdirP, Option.map_some]
    exact ⟨_, rfl, rfl, rfl, rfl⟩
  | some v =>
    simp only [lookupA_updateDir, if_pos rfl, lookupA_mkdirP, Option.map_some]
    exact ⟨_, rfl, rfl, rfl, rfl⟩

/-- C3: after a successful `save_profile`, re-scanning the same directory
from scratch (`load_all`, as a fresh `VoiceProfileManager` does at startup)
yields an entry under the sanitized id whose `speaker_embedding`,
`mel_spec_mean` and f0 statistics are exactly the saved values (exact
equality in the model, hence within any floating tolerance). -/
theorem save_load_roundtrip (st : Store) (disk : Disk) (profile_id : PId) (pd : ProfileData)
    (now : ℕ) (e : List ℚ) (mm : List (List ℚ))
    (hse : pd.speaker_embedding = some e) (hms : pd.mel_spec_mean = some mm) :
    (save_profile st disk profile_id pd now none).1 = true ∧
    ∃ q : ProfileData,
      lookupA (load_all (save_profile st disk profile_id pd now none).2.2)
        (sanitizeProfileId profile_id now) = some q ∧
      q.speaker_embedding = pd.speaker_embedding ∧
      q.mel_spec_mean = pd.mel_spec_mean ∧
      q.meta.f0_stats_mean = pd.meta.f0_stats_mean ∧
      q.meta.f0_stats_std = pd.meta.f0_stats_std := by
  rw [save_profile_ok]
  refine ⟨rfl, ?_⟩
  obtain ⟨dir, hdir, hmdata, hemb, hmel⟩ :=
    lookupA_saveDiskEffect disk (sanitizeProfileId profile_id now) pd now e mm hse hms
  refine ⟨ProfileData.mk (stampMeta pd.meta now) dir.emb dir.f0s dir.mel, ?_, ?_, ?_, rfl, rfl⟩
  · exact lookupA_load_all _ _ dir (stampMeta pd.meta now) hdir hmdata
  · rw [hse]
    exact hemb
  · rw [hms]
    exact hmel

/-- Concrete profile dictionary with all arrays present, for the round-trip
witness. -/
def pdR : ProfileData :=
  ⟨⟨some ['n'], some 1, none, some 220, some 30, some 2⟩, some [3, 4], some [5], some [[6, 7]]⟩

/-- Witness for C3: saving `pdR` under `"v"` and rescanning the directory
recovers its embedding, mel template and f0 statistics. -/
theorem save_load_roundtrip_witness :
    (save_profile [] [] "v".toList pdR 9 none).1 = true ∧
    ∃ q : ProfileData,
      lookupA (load_all (save_profile [] [] "v".toList pdR 9 none).2.2)
        (sanitizeProfileId "v".toList 9) = some q ∧
      q.speaker_embedding = pdR.speaker_embedding ∧
      q.mel_spec_mean = pdR.mel_spec_mean ∧
      q.meta.f0_stats_mean = pdR.meta.f0_stats_mean ∧
      q.meta.f0_stats_std = pdR.meta.f0_stats_std :=
  save_load_roundtrip [] [] "v".toList pdR 9 [3, 4] [[6, 7]] rfl rfl

/-! ## C5 — unit-norm embedding and the weight floor -/

theorem normSq_nonneg (v : List ℝ) : 0 ≤ normSq v := by
  unfold normSq
  apply List.sum_nonneg
  intro x hx
  obtain ⟨y, -, rfl⟩ := List.mem_map.mp hx
  exact sq_nonneg y

theorem normSq_eq_zero_all_zero (v : List ℝ) (h : normSq v = 0) : ∀ x ∈ v, x = 0 := by
  intro x hx
  have hle : x ^ 2 ≤ normSq v := by
    unfold normSq
    refine List.single_le_sum (fun y hy => ?_) _ (List.mem_map_of_mem _ hx)
    obtain ⟨z, -, rfl⟩ := List.mem_map.mp hy
    exact sq_nonneg z
  have hx2 : x ^ 2 = 0 := le_antisymm (h ▸ hle) (sq_nonneg x)
  exact sq_eq_zero_iff.mp hx2

theorem normSq_map_div (v : List ℝ) (c : ℝ) :
    normSq (v.map (fun x => x / c)) = normSq v / c ^ 2 := by
  unfold normSq
  induction v with
  | nil => simp
  | cons x rest ih =>
    simp only [List.map_cons, List.sum_cons] at ih ⊢
    rw [div_pow, ih, div_add_div_same]

theorem normalizeVec_norm (v : List ℝ) :
    vnorm (normalizeVec v) = 1 ∨
    (vnorm (normalizeVec v) = 0 ∧ ∀ x ∈ normalizeVec v, x = 0) := by
  unfold normalizeVec
  by_cases h : 0 < vnorm v
  · left
    rw [if_pos h]
    unfold vnorm at h ⊢
    have hpos : 0 < normSq v := Real.sqrt_pos.mp h
    rw [normSq_map_div, Real.sq_sqrt (le_of_lt hpos), div_self (ne_of_gt hpos), Real.sqrt_one]
  · right
    rw [if_neg h]
    have h0 : vnorm v = 0 := by
      unfold vnorm
      exact le_antisymm (by unfold vnorm at h; exact not_lt.mp h) (Real.sqrt_nonneg _)
    have hsq : normSq v = 0 := by
      unfold vnorm at h0
      exact (Real.sqrt_eq_zero (normSq_nonneg v)).mp h0
    exact ⟨h0, normSq_eq_zero_all_zero v hsq⟩

/-- C5: every sample's merge weight is `max(f0_mean, 1.0) ≥ 1` — even when
all samples are silent (`f0_mean = 0`) the weights never degrade to zero —
and the final speaker embedding of any successful aggregation has Euclidean
norm 1, or is the all-zero vector with norm 0 in the degenerate case. -/
theorem embedding_unit_norm (features_list : List SampleFeatures)
    (hne : features_list ≠ [])
    (husable : ∃ f ∈ features_list, f.speaker_embedding ≠ none) :
    (∀ f ∈ features_list, ∀ p, usableEmbedding f = some p → 1 ≤ p.2) ∧
    ∀ r, aggregate_features features_list = some r →
      vnorm (finalEmbedding r) = 1 ∨
      (vnorm (finalEmbedding r) = 0 ∧ ∀ x ∈ finalEmbedding r, x = 0) := by
  constructor
  · intro f hf p hp
    unfold usableEmbedding at hp
    cases hse : f.speaker_embedding with
    | none =>
      rw [hse] at hp
      simp at hp
    | some ee =>
      rw [hse] at hp
      have hp2 : (ee, max (f.f0_stats_mean.getD 0) 1) = p := Option.some.inj hp
      subst hp2
      exact le_max_right _ _
  · intro r hr
    unfold finalEmbedding
    exact normalizeVec_norm _

/-- All-silent sample (`f0_mean = 0`) with a usable embedding, for the C5
witness. -/
def sW : SampleFeatures := ⟨some [1], [], some 0, some 0, none⟩

/-- Witness for C5 at a single silent sample: weights are still ≥ 1 and the
aggregated embedding is unit-norm or zero. -/
theorem embedding_unit_norm_witness :
    (∀ f ∈ [sW], ∀ p, usableEmbedding f = some p → 1 ≤ p.2) ∧
    ∀ r, aggregate_features [sW] = some r →
      vnorm (finalEmbedding r) = 1 ∨
      (vnorm (finalEmbedding r) = 0 ∧ ∀ x ∈ finalEmbedding r, x = 0) :=
  embedding_unit_norm [sW] (by decide) (by decide)

/-! ## C4 — order (in)dependence of aggregation -/

/-- Shape uniformity of a sample list: every usable embedding has dimension
`D` and every present mel matrix has `B` frequency-bin rows (the uniformity
`np.array` stacking requires of real extractor output). -/
def uniformDims (features_list : List SampleFeatures) (D B : ℕ) : Bool :=
  features_list.all (fun f =>
    f.speaker_embedding.all (fun e => e.length == D) &&
    f.mel_spec.all (fun m => m.length == B))

/-- Every aggregated field except the pitch reservoir. -/
def aggNoReservoir (r : AggregatedFeatures) : List ℚ × ℚ × ℚ × List (List ℚ) × ℕ :=
  (r.emb_pre, r.f0_mean, r.f0_std, r.mel_spec_mean, r.sample_count)

theorem embPairs_dim_of_uniform (features_list : List SampleFeatures) (D B : ℕ)
    (hu : uniformDims features_list D B = true) :
    ∀ p ∈ embPairs features_list, p.1.length = D := by
  intro p hp
  obtain ⟨f, hf, hfp⟩ := List.mem_filterMap.mp hp
  unfold usableEmbedding at hfp
  cases hse : f.speaker_embedding with
  | none =>
    rw [hse] at hfp
    simp at hfp
  | some e =>
    rw [hse] at hfp
    have hfp2 : (e, max (f.f0_stats_mean.getD 0) 1) = p := Option.some.inj hfp
    rw [uniformDims, List.all_eq_true] at hu
    have hfu := hu f hf
    rw [hse] at hfu
    simp only [Option.all_some, Bool.and_eq_true, beq_iff_eq] at hfu
    rw [← hfp2]
    exact hfu.1

theorem melList_rows_of_uniform (features_list : List SampleFeatures) (D B : ℕ)
    (hu : uniformDims features_list D B = true) :
    ∀ m ∈ melList features_list, m.length = B := by
  intro m hm
  obtain ⟨f, hf, hfm⟩ := List.mem_filterMap.mp hm
  rw [uniformDims, List.all_eq_true] at hu
  have hfu := hu f hf
  rw [hfm] at hfu
  simp only [Option.all_some, Bool.and_eq_true, beq_iff_eq] at hfu
  exact hfu.2

/-- C4 (amended): aggregation is order-independent in the speaker-embedding
merge, the f0 statistics, the mel template and the sample count (in exact
arithmetic, for shape-uniform samples, with no tie-break caveat needed) —
but *not* in the pitch reservoir, which is excluded here and refuted
separately: `f0_samples` concatenates in input order. -/
theorem aggregate_perm_invariant (D B : ℕ) (l₁ l₂ : List SampleFeatures)
    (hp : l₁.Perm l₂) (hu : uniformDims l₁ D B = true) :
    (aggregate_features l₁).map aggNoReservoir = (aggregate_features l₂).map aggNoReservoir := by
  have hu₂ : uniformDims l₂ D B = true := by
    rw [uniformDims, List.all_eq_true] at hu ⊢
    intro f hf
    exact hu f (hp.mem_iff.mpr hf)
  have hpp : (embPairs l₁).Perm (embPairs l₂) := hp.filterMap usableEmbedding
  have hW : totalWeight l₁ = totalWeight l₂ := (hpp.map Prod.snd).sum_eq
  have hf0 : (f0Pairs l₁).Perm (f0Pairs l₂) := hp.filterMap _
  have hmel : (melList l₁).Perm (melList l₂) := hp.filterMap SampleFeatures.mel_spec
  by_cases h1 : l₁.isEmpty
  · have h1b : l₁ = [] := List.isEmpty_iff.mp h1
    have h2b : l₂ = [] := (h1b ▸ hp).symm.eq_nil
    rw [h1b, h2b]
  · have h1' : l₂.isEmpty = false := by
      rcases h2b : l₂ with _ | ⟨f, rest⟩
      · rw [h2b] at hp
        exact absurd (List.isEmpty_iff.mpr hp.eq_nil) h1
      · rfl
    by_cases h2 : (embPairs l₁).isEmpty
    · have h2e : embPairs l₂ = [] :=
        ((List.isEmpty_iff.mp h2) ▸ hpp).symm.eq_nil
      simp [aggregate_features, h1, h1', h2, List.isEmpty_iff.mpr h2e]
    · have h2' : (embPairs l₂).isEmpty = false := by
        rcases h2b : embPairs l₂ with _ | ⟨p, rest⟩
        · rw [h2b] at hpp
          exact absurd (List.isEmpty_iff.mpr hpp.eq_nil) h2
        · rfl
      have hdim : embDim l₁ = embDim l₂ := by
        unfold embDim
        rcases hq1 : embPairs l₁ with _ | ⟨p1, r1⟩
        · rw [hq1] at h2
          simp at h2
        · rcases hq2 : embPairs l₂ with _ | ⟨p2, r2⟩
          · rw [hq2] at h2'
            simp at h2'
          · have hd1 : p1.1.length = D :=
              embPairs_dim_of_uniform l₁ D B hu p1 (by rw [hq1]; exact List.mem_cons_self _ _)
            have hd2 : p2.1.length = D :=
              embPairs_dim_of_uniform l₂ D B hu₂ p2 (by rw [hq2]; exact List.mem_cons_self _ _)
            simp [hd1, hd2]
      have hpre : embPre l₁ = embPre l₂ := by
        unfold embPre
        rw [hdim, ← hW]
        apply List.map_congr_left
        intro j hj
        exact (hpp.map (fun p => p.2 / totalWeight l₁ * p.1.getD j 0)).sum_eq
      have hf0mean : aggF0Mean l₁ = aggF0Mean l₂ := by
        unfold aggF0Mean
        by_cases he : (f0Pairs l₁).isEmpty
        · have he2 : f0Pairs l₂ = [] := ((List.isEmpty_iff.mp he) ▸ hf0).symm.eq_nil
          rw [if_pos he, if_pos (List.isEmpty_iff.mpr he2)]
        · have he2 : ¬(f0Pairs l₂).isEmpty = true := by
            intro hx
            exact he (List.isEmpty_iff.mpr (((List.isEmpty_iff.mp hx) ▸ hf0.symm).symm.eq_nil))
          rw [if_neg he, if_neg he2, (hf0.map Prod.fst).sum_eq, hf0.length_eq]
      have hf0std : aggF0Std l₁ = aggF0Std l₂ := by
        unfold aggF0Std
        by_cases he : (f0Pairs l₁).isEmpty
        · have he2 : f0Pairs l₂ = [] := ((List.isEmpty_iff.mp he) ▸ hf0).symm.eq_nil
          rw [if_pos he, if_pos (List.isEmpty_iff.mpr he2)]
        · have he2 : ¬(f0Pairs l₂).isEmpty = true := by
            intro hx
            exact he (List.isEmpty_iff.mpr (((List.isEmpty_iff.mp hx) ▸ hf0.symm).symm.eq_nil))
          rw [if_neg he, if_neg he2, (hf0.map Prod.snd).sum_eq, hf0.length_eq]
      have hmelT : melTemplate l₁ = melTemplate l₂ := by
        rcases hm1 : melList l₁ with _ | ⟨m0, mr⟩
        · have hm2 : melList l₂ = [] := by
            rw [hm1] at hmel
            exact hmel.symm.eq_nil
          unfold melTemplate
          simp only [hm1, hm2]
        · rcases hm2 : melList l₂ with _ | ⟨m0', mr'⟩
          · rw [hm1, hm2] at hmel
            exact absurd hmel.eq_nil (by simp)
          · have hb1 : m0.length = B :=
              melList_rows_of_uniform l₁ D B hu m0 (by rw [hm1]; exact List.mem_cons_self _ _)
            have hb2 : m0'.length = B :=
              melList_rows_of_uniform l₂ D B hu₂ m0' (by rw [hm2]; exact List.mem_cons_self _ _)
            rw [hm1, hm2] at hmel
            unfold melTemplate
            simp only [hm1, hm2]
            rw [hb1, hb2]
            congr 1
            apply List.map_congr_left
            intro i hi
            rw [(hmel.map (fun spec => rowMean (spec.getD i []))).sum_eq, hmel.length_eq]
      simp only [aggregate_features, h1, h1', h2, h2', Bool.false_eq_true, if_false,
        Option.map_some', aggNoReservoir]
      rw [hpre, hf0mean, hf0std, hmelT, hp.length_eq]

/-- Samples with distinct weights (5 and 7) and distinct pitch sequences. -/
def sOrd1 : SampleFeatures := ⟨some [1], [55], some 5, some 1, none⟩

/-- Second sample for the order-dependence counterexample. -/
def sOrd2 : SampleFeatures := ⟨some [1], [66], some 7, some 1, none⟩

/-- Counterexample to C4 as stated: swapping two samples — whose weights 5
and 7 are distinct, so the equal-weight tie-break caveat does not apply —
changes the aggregated result: the pitch reservoir `f0_samples` comes out
`[55, 66]` in one order and `[66, 55]` in the other.  The aggregated result
is therefore not permutation-invariant. -/
theorem aggregate_reservoir_order_dependent :
    (aggregate_features [sOrd1, sOrd2]).map AggregatedFeatures.f0_samples = some [55, 66] ∧
    (aggregate_features [sOrd2, sOrd1]).map AggregatedFeatures.f0_samples = some [66, 55] ∧
    ([55, 66] : List ℚ) ≠ [66, 55] := by
  decide

/-- Witness for C4's amended theorem: swapping the same two samples leaves
every aggregated field except the reservoir unchanged. -/
theorem aggregate_perm_invariant_witness :
    (aggregate_features [sOrd1, sOrd2]).map aggNoReservoir =
      (aggregate_features [sOrd2, sOrd1]).map aggNoReservoir :=
  aggregate_perm_invariant 1 1 [sOrd1, sOrd2] [sOrd2, sOrd1] (by decide) (by decide)
